import Mathlib

/-!
Shallow embedding of the 2-1N exchange-gift randomizer.

`src/gift_randomizer.py` provides:
  * `Participant` — a dataclass of nine string fields;
  * `load_participants` — builds participants from CSV dict-rows, trimming
    whitespace and tolerating missing columns;
  * `random_derangement` — rejection sampling of a fixed-point-free
    permutation, at most 1000 attempts, raising on n < 2 or on exhaustion.

`src/clean_csv.py` provides:
  * `normalize_fieldnames` / the inner `val` helper / `filter_and_write` —
    filters CSV rows by section and attendance and projects nine columns.

Python's random source is modelled as an injected `shuffle` function: at
attempt `k` the engine submits a fresh copy of the index list and receives
the shuffled copy `shuffle k indices` back, mirroring
`shuffled = indices[:]; random.shuffle(shuffled)`.  Python exceptions are
modelled as `Except String` carrying the exact exception message.
CSV dict-rows are association lists `List (String × Option String)`
(`none` is Python's `None` for a short row).
-/

/-- The `Participant` dataclass of `gift_randomizer.py`. -/
structure Participant where
  «section» : String
  email : String
  name : String
  wish1 : String
  wish1_desc : String
  wish2 : String
  wish2_desc : String
  wish3 : String
  wish3_desc : String
deriving DecidableEq, Repr

/-- All-empty participant, used only as an out-of-range `getD` default. -/
def emptyParticipant : Participant :=
  ⟨"", "", "", "", "", "", "", "", ""⟩

/-- One CSV record as `csv.DictReader` yields it: original header names
paired with the raw cell (`none` when the row was too short). -/
abbrev DictRow := List (String × Option String)

/-- The inner `get` closure of `load_participants`: scan the row's keys in
order, return the first whose stripped key equals the stripped requested
column, stripped; absent columns give `""`. -/
def rowGet (row : DictRow) (col : String) : String :=
  match row.find? (fun kv => kv.1.trim == col.trim) with
  | some kv => (kv.2.getD "").trim
  | none => ""

/-- `load_participants` of `gift_randomizer.py`, over already-parsed
dict-rows (the file/CSV layer is outside the embedding). -/
def load_participants (rows : List DictRow) : List Participant :=
  rows.map fun row =>
    { «section» := rowGet row "Enter your Section"
      email := rowGet row "Username"
      name := rowGet row "Enter your Name (FN, MI, LN)"
      wish1 := rowGet row "What is your wish #1? (Priority Wish)"
      wish1_desc := rowGet row "Describe your wish #1! (Priority Wish)"
      wish2 := rowGet row "What is your wish #2?"
      wish2_desc := rowGet row "Describe your wish #2!"
      wish3 := rowGet row "What is your wish #3?"
      wish3_desc := rowGet row "Describe your wish #3!" }

/-- The loop guard `all(i != shuffled[i] for i in range(n))`. -/
def passesCheck (n : Nat) (shuffled : List Nat) : Bool :=
  (List.range n).all fun i => i != shuffled.getD i 0

/-- `[(participants[i], participants[shuffled[i]]) for i in range(n)]`. -/
def buildPairs (ps : List Participant) (n : Nat) (shuffled : List Nat) :
    List (Participant × Participant) :=
  (List.range n).map fun i =>
    (ps.getD i emptyParticipant, ps.getD (shuffled.getD i 0) emptyParticipant)

/-- The `for _ in range(1000)` retry loop, structural in the remaining
fuel; `attempt` counts the draws already consumed, so the loop starts at
`derangeAux shuffle ps n 0 1000`. -/
def derangeAux (shuffle : Nat → List Nat → List Nat) (ps : List Participant)
    (n : Nat) : Nat → Nat → Except String (List (Participant × Participant))
  | _, 0 => Except.error "Failed to generate derangement after 1000 attempts"
  | attempt, fuel + 1 =>
    if passesCheck n (shuffle attempt (List.range n)) then
      Except.ok (buildPairs ps n (shuffle attempt (List.range n)))
    else
      derangeAux shuffle ps n (attempt + 1) fuel

/-- `random_derangement` of `gift_randomizer.py`, with the random source
injected as `shuffle`. -/
def random_derangement (shuffle : Nat → List Nat → List Nat)
    (participants : List Participant) :
    Except String (List (Participant × Participant)) :=
  let n := participants.length
  if n < 2 then
    Except.error "Need at least 2 participants for gift exchange"
  else
    derangeAux shuffle participants n 0 1000

/-- The engine's mutable locals as explicit state: Python's
`random_derangement` holds `participants` and `indices`, a current attempt
counter, and (once the loop exits) an outcome.  `random.shuffle` acts on
the copy `indices[:]`, never on `indices` itself. -/
structure EngineState where
  participants : List Participant
  indices : List Nat
  attempt : Nat
  outcome : Option (Except String (List (Participant × Participant)))

/-- State right after `indices = list(range(n))`. -/
def engineInit (ps : List Participant) : EngineState :=
  { participants := ps, indices := List.range ps.length, attempt := 0,
    outcome := none }

/-- One iteration of the retry loop as a state transformer. -/
def engineStep (shuffle : Nat → List Nat → List Nat) (s : EngineState) :
    EngineState :=
  match s.outcome with
  | some _ => s
  | none =>
    if s.attempt < 1000 then
      if passesCheck s.participants.length (shuffle s.attempt s.indices) then
        { s with outcome := some (Except.ok (buildPairs s.participants
            s.participants.length (shuffle s.attempt s.indices))) }
      else
        { s with attempt := s.attempt + 1 }
    else
      { s with outcome := some (Except.error
          "Failed to generate derangement after 1000 attempts") }

/-- `SELECTED_COLUMNS` of `clean_csv.py` (note the trailing blanks in the
wish-2 and wish-3 headers, present in the source). -/
def SELECTED_COLUMNS : List String :=
  ["Enter your Section",
   "Username",
   "Enter your Name (FN, MI, LN)",
   "What is your wish #1? (Priority Wish)",
   "Describe your wish #1! (Priority Wish)",
   "What is your wish #2? ",
   "Describe your wish #2! ",
   "What is your wish #3? ",
   "Describe your wish #3! "]

/-- `ATTEND_COL` of `clean_csv.py`. -/
def ATTEND_COL : String :=
  "Will you attend the event and participate in our exchange of gifts?"

/-- `ATTEND_VALUE` of `clean_csv.py`. -/
def ATTEND_VALUE : String :=
  "Will attend and Will participate for the Exchange Gifts"

/-- `SECTION_VALUE` of `clean_csv.py`. -/
def SECTION_VALUE : String := "BSCS 2-1N"

/-- Lookup in `normalize_fieldnames`'s dict `{name.strip(): name}`: a dict
comprehension keeps the LAST name per stripped key, hence the reverse
search. -/
def normalize_fieldnames (fieldnames : List String) (key : String) :
    Option String :=
  fieldnames.reverse.find? fun name => name.trim == key

/-- The inner `val` closure of `filter_and_write`: resolve the stripped
column through the normalized header map, then read and strip the cell
(`row.get(orig) or ""` turns both an absent key and `None` into `""`). -/
def fw_val (fieldnames : List String) (row : DictRow) (col : String) :
    String :=
  match normalize_fieldnames fieldnames col.trim with
  | none => ""
  | some orig =>
    match row.find? (fun kv => kv.1 == orig) with
    | some kv => (kv.2.getD "").trim
    | none => ""

/-- `filter_and_write` of `clean_csv.py` over parsed dict-rows: returns
the written data rows (each an ordered list of column-value cells, the
CSV writer's output after the header) together with `matched`. -/
def filter_and_write (fieldnames : List String) :
    List DictRow → List (List (String × String)) × Nat
  | [] => ([], 0)
  | row :: rest =>
    let sectionCell := fw_val fieldnames row "Enter your Section"
    let attendCell := fw_val fieldnames row ATTEND_COL
    let prev := filter_and_write fieldnames rest
    if sectionCell == SECTION_VALUE && attendCell == ATTEND_VALUE then
      ((SELECTED_COLUMNS.map fun col => (col, fw_val fieldnames row col))
         :: prev.1,
       prev.2 + 1)
    else
      prev

/-- The row predicate of `filter_and_write`'s `if`, named for the
statements below. -/
def rowMatches (fieldnames : List String) (row : DictRow) : Bool :=
  (fw_val fieldnames row "Enter your Section" == SECTION_VALUE)
    && (fw_val fieldnames row ATTEND_COL == ATTEND_VALUE)

/-! ### Helper lemmas about the retry loop -/

lemma derangeAux_ok (shuffle : Nat → List Nat → List Nat)
    (ps : List Participant) (n : Nat) :
    ∀ fuel attempt res, derangeAux shuffle ps n attempt fuel = Except.ok res →
      ∃ k, attempt ≤ k ∧ k < attempt + fuel ∧
        passesCheck n (shuffle k (List.range n)) = true ∧
        res = buildPairs ps n (shuffle k (List.range n)) := by
  intro fuel
  induction fuel with
  | zero => intro attempt res h; simp [derangeAux] at h
  | succ m ih =>
    intro attempt res h
    by_cases hc : passesCheck n (shuffle attempt (List.range n)) = true
    · refine ⟨attempt, Nat.le_refl _, by omega, hc, ?_⟩
      simp [derangeAux, hc] at h
      exact h.symm
    · simp [derangeAux, hc] at h
      obtain ⟨k, hk1, hk2, hk3, hk4⟩ := ih (attempt + 1) res h
      exact ⟨k, by omega, by omega, hk3, hk4⟩

lemma derangeAux_first (shuffle : Nat → List Nat → List Nat)
    (ps : List Participant) (n : Nat) :
    ∀ fuel attempt k, attempt ≤ k → k < attempt + fuel →
      passesCheck n (shuffle k (List.range n)) = true →
      (∀ j, attempt ≤ j → j < k →
        passesCheck n (shuffle j (List.range n)) = false) →
      derangeAux shuffle ps n attempt fuel =
        Except.ok (buildPairs ps n (shuffle k (List.range n))) := by
  intro fuel
  induction fuel with
  | zero => intro attempt k h1 h2 _ _; omega
  | succ m ih =>
    intro attempt k h1 h2 hpass hmin
    by_cases he : attempt = k
    · subst he
      simp [derangeAux, hpass]
    · have hfalse : passesCheck n (shuffle attempt (List.range n)) = false :=
        hmin attempt (Nat.le_refl _) (by omega)
      simp [derangeAux, hfalse]
      exact ih (attempt + 1) k (by omega) (by omega) hpass
        (fun j hj1 hj2 => hmin j (by omega) hj2)

lemma derangeAux_error (shuffle : Nat → List Nat → List Nat)
    (ps : List Participant) (n : Nat) :
    ∀ fuel attempt,
      (∀ k, attempt ≤ k → k < attempt + fuel →
        passesCheck n (shuffle k (List.range n)) = false) →
      derangeAux shuffle ps n attempt fuel =
        Except.error "Failed to generate derangement after 1000 attempts" := by
  intro fuel
  induction fuel with
  | zero => intro attempt _; rfl
  | succ m ih =>
    intro attempt hall
    have hfalse : passesCheck n (shuffle attempt (List.range n)) = false :=
      hall attempt (Nat.le_refl _) (by omega)
    simp [derangeAux, hfalse]
    exact ih (attempt + 1) (fun k hk1 hk2 => hall k (by omega) (by omega))

lemma derangeAux_congr (shuffle shuffle2 : Nat → List Nat → List Nat)
    (ps : List Participant) (n : Nat) :
    ∀ fuel attempt,
      (∀ k, attempt ≤ k → k < attempt + fuel →
        shuffle k (List.range n) = shuffle2 k (List.range n)) →
      derangeAux shuffle ps n attempt fuel =
        derangeAux shuffle2 ps n attempt fuel := by
  intro fuel
  induction fuel with
  | zero => intro attempt _; rfl
  | succ m ih =>
    intro attempt hag
    have h0 : shuffle attempt (List.range n) = shuffle2 attempt (List.range n) :=
      hag attempt (Nat.le_refl _) (by omega)
    simp only [derangeAux, h0]
    by_cases hc : passesCheck n (shuffle2 attempt (List.range n)) = true
    · simp [hc]
    · simp [hc]
      exact ih (attempt + 1) (fun k hk1 hk2 => hag k (by omega) (by omega))

lemma random_derangement_ok (shuffle : Nat → List Nat → List Nat)
    (ps : List Participant) (res : List (Participant × Participant))
    (h : random_derangement shuffle ps = Except.ok res) :
    2 ≤ ps.length ∧ ∃ k, k < 1000 ∧
      passesCheck ps.length (shuffle k (List.range ps.length)) = true ∧
      res = buildPairs ps ps.length (shuffle k (List.range ps.length)) := by
  unfold random_derangement at h
  by_cases hn : ps.length < 2
  · simp [hn] at h
  · refine ⟨by omega, ?_⟩
    simp only [hn, if_false] at h
    obtain ⟨k, _, hk2, hk3, hk4⟩ := derangeAux_ok shuffle ps ps.length 1000 0 res h
    exact ⟨k, by omega, hk3, hk4⟩

lemma passesCheck_ne (n : Nat) (σ : List Nat) (h : passesCheck n σ = true) :
    ∀ i, i < n → σ.getD i 0 ≠ i := by
  intro i hi
  have hall := List.all_eq_true.mp h i (List.mem_range.mpr hi)
  simp only [bne_iff_ne] at hall
  exact fun he => hall he.symm

lemma perm_length (σ : List Nat) (n : Nat) (hperm : σ.Perm (List.range n)) :
    σ.length = n := by
  simpa using hperm.length_eq

lemma perm_getD_lt (σ : List Nat) (n : Nat) (hperm : σ.Perm (List.range n))
    (i : Nat) (hi : i < n) : σ.getD i 0 < n := by
  have hlen : σ.length = n := perm_length σ n hperm
  have hmem : σ.getD i 0 ∈ σ := by
    rw [List.getD_eq_getElem σ 0 (by omega)]
    exact List.getElem_mem _
  have := hperm.mem_iff.mp hmem
  simpa using this

lemma map_getD_range {α : Type} (l : List α) (e : α) :
    (List.range l.length).map (fun i => l.getD i e) = l := by
  apply List.ext_getElem
  · simp
  · intro i h1 h2
    simp [List.getD_eq_getElem, List.getElem?_eq_getElem h2]

lemma map_getD_eq_map {α : Type} (σ : List Nat) (f : Nat → α) :
    (List.range σ.length).map (fun i => f (σ.getD i 0)) = σ.map f := by
  apply List.ext_getElem
  · simp
  · intro i h1 h2
    have h3 : i < σ.length := by simpa using h1
    simp [List.getD_eq_getElem, List.getElem?_eq_getElem h3]

lemma getD_buildPairs (ps : List Participant) (n : Nat) (σ : List Nat)
    (i : Nat) (hi : i < n) :
    (buildPairs ps n σ).getD i (emptyParticipant, emptyParticipant) =
      (ps.getD i emptyParticipant,
       ps.getD (σ.getD i 0) emptyParticipant) := by
  have hlen : i < (buildPairs ps n σ).length := by simp [buildPairs, hi]
  rw [List.getD_eq_getElem _ _ hlen]
  simp [buildPairs]

lemma random_derangement_eq_loop (shuffle : Nat → List Nat → List Nat)
    (ps : List Participant) (h : ¬ ps.length < 2) :
    random_derangement shuffle ps = derangeAux shuffle ps ps.length 0 1000 := by
  show (if ps.length < 2 then
      Except.error "Need at least 2 participants for gift exchange"
    else derangeAux shuffle ps ps.length 0 1000) =
    derangeAux shuffle ps ps.length 0 1000
  exact if_neg h

lemma perm_pair_cases (σ : List Nat) (h : σ.Perm [0, 1]) :
    σ = [0, 1] ∨ σ = [1, 0] := by
  have hlen : σ.length = 2 := by simpa using h.length_eq
  cases σ with
  | nil => simp at hlen
  | cons x t =>
    cases t with
    | nil => simp at hlen
    | cons y t2 =>
      cases t2 with
      | cons z t3 => simp at hlen
      | nil =>
        have h0 : (0 : Nat) ∈ [x, y] := h.mem_iff.mpr (by simp)
        have h1 : (1 : Nat) ∈ [x, y] := h.mem_iff.mpr (by simp)
        simp only [List.mem_cons, List.not_mem_nil, or_false] at h0 h1
        rcases h0 with h0 | h0 <;> rcases h1 with h1 | h1 <;> simp_all
        omega

/-- Fixed sample participants used by the concrete witnesses below. -/
def alice : Participant :=
  ⟨"BSCS 2-1N", "alice@example.com", "Alice", "", "", "", "", "", ""⟩

/-- Second sample participant. -/
def bob : Participant :=
  ⟨"BSCS 2-1N", "bob@example.com", "Bob", "", "", "", "", "", ""⟩

/-- Third sample participant. -/
def carol : Participant :=
  ⟨"BSCS 2-1N", "carol@example.com", "Carol", "", "", "", "", "", ""⟩

/-- C1: whenever the injected source returns genuine permutations of the
index list, any assignment set `random_derangement` returns is built from
a drawn index permutation `σ` with no fixed point: `σ.getD i 0 ≠ i` for
every position `i`, so giver and receiver differ by position even when
the directory holds two value-equal participants. -/
theorem spec_c1 (shuffle : Nat → List Nat → List Nat) (ps : List Participant)
    (res : List (Participant × Participant))
    (hperm : ∀ k, (shuffle k (List.range ps.length)).Perm
      (List.range ps.length))
    (hok : random_derangement shuffle ps = Except.ok res) :
    ∃ σ : List Nat, σ.Perm (List.range ps.length) ∧
      (∀ i, i < ps.length → σ.getD i 0 ≠ i) ∧
      res = buildPairs ps ps.length σ ∧
      ∀ i, i < ps.length →
        res.getD i (emptyParticipant, emptyParticipant) =
          (ps.getD i emptyParticipant,
           ps.getD (σ.getD i 0) emptyParticipant) := by
  obtain ⟨h2, k, hk, hpass, hres⟩ := random_derangement_ok shuffle ps res hok
  refine ⟨shuffle k (List.range ps.length), hperm k,
    passesCheck_ne ps.length _ hpass, hres, fun i hi => ?_⟩
  rw [hres, getD_buildPairs ps ps.length _ i hi]

/-- C1 witness at the two-participant directory with the swap source. -/
theorem spec_c1_witness :
    ∃ σ : List Nat,
      σ.Perm (List.range ([alice, bob] : List Participant).length) ∧
      (∀ i, i < ([alice, bob] : List Participant).length → σ.getD i 0 ≠ i) ∧
      ([(alice, bob), (bob, alice)] : List (Participant × Participant)) =
        buildPairs [alice, bob]
          ([alice, bob] : List Participant).length σ ∧
      ∀ i, i < ([alice, bob] : List Participant).length →
        ([(alice, bob), (bob, alice)] :
            List (Participant × Participant)).getD i
          (emptyParticipant, emptyParticipant) =
          ([alice, bob].getD i emptyParticipant,
           [alice, bob].getD (σ.getD i 0) emptyParticipant) :=
  spec_c1 (fun _ _ => [1, 0]) [alice, bob] [(alice, bob), (bob, alice)]
    (fun _ => List.Perm.swap 0 1 []) rfl

/-- C2: whenever the injected source returns genuine permutations of the
index list, in any returned assignment set the giver column is exactly the
directory and the receiver column is a permutation of the directory, so
every position occurs exactly once on each side. -/
theorem spec_c2 (shuffle : Nat → List Nat → List Nat) (ps : List Participant)
    (res : List (Participant × Participant))
    (hperm : ∀ k, (shuffle k (List.range ps.length)).Perm
      (List.range ps.length))
    (hok : random_derangement shuffle ps = Except.ok res) :
    res.map Prod.fst = ps ∧ (res.map Prod.snd).Perm ps := by
  obtain ⟨h2, k, hk, hpass, hres⟩ := random_derangement_ok shuffle ps res hok
  revert hres
  generalize hσ : shuffle k (List.range ps.length) = σ
  intro hres
  have hp2 : σ.Perm (List.range ps.length) := by rw [← hσ]; exact hperm k
  have hlen : σ.length = ps.length := perm_length σ ps.length hp2
  subst hres
  unfold buildPairs
  rw [List.map_map, List.map_map]
  refine ⟨map_getD_range ps emptyParticipant, ?_⟩
  have hmap : (List.range ps.length).map
      (Prod.snd ∘ fun i => (ps.getD i emptyParticipant,
        ps.getD (σ.getD i 0) emptyParticipant)) =
      σ.map fun j => ps.getD j emptyParticipant := by
    rw [← hlen]
    exact map_getD_eq_map σ fun j => ps.getD j emptyParticipant
  rw [hmap]
  have hp := hp2.map fun j => ps.getD j emptyParticipant
  rwa [map_getD_range ps emptyParticipant] at hp

/-- C2 witness on the two-participant directory with the swap source. -/
theorem spec_c2_witness :
    ([(alice, bob), (bob, alice)] : List (Participant × Participant)).map
        Prod.fst = [alice, bob] ∧
      (([(alice, bob), (bob, alice)] : List (Participant × Participant)).map
        Prod.snd).Perm [alice, bob] :=
  spec_c2 (fun _ _ => [1, 0]) [alice, bob] [(alice, bob), (bob, alice)]
    (fun _ => List.Perm.swap 0 1 []) rfl

/-- C3: any returned assignment set has exactly as many pairs as the
directory, and the giver of the i-th pair is the directory's i-th
participant. -/
theorem spec_c3 (shuffle : Nat → List Nat → List Nat) (ps : List Participant)
    (res : List (Participant × Participant))
    (hok : random_derangement shuffle ps = Except.ok res) :
    res.length = ps.length ∧ ∀ i, i < ps.length →
      (res.getD i (emptyParticipant, emptyParticipant)).1 =
        ps.getD i emptyParticipant := by
  obtain ⟨h2, k, hk, hpass, hres⟩ := random_derangement_ok shuffle ps res hok
  subst hres
  refine ⟨by simp [buildPairs], fun i hi => ?_⟩
  rw [getD_buildPairs ps ps.length _ i hi]

/-- C3 witness on the two-participant directory with the swap source. -/
theorem spec_c3_witness :
    ([(alice, bob), (bob, alice)] : List (Participant × Participant)).length =
        ([alice, bob] : List Participant).length ∧
      (([(alice, bob), (bob, alice)] :
          List (Participant × Participant)).getD 0
        (emptyParticipant, emptyParticipant)).1 =
        [alice, bob].getD 0 emptyParticipant :=
  ⟨(spec_c3 (fun _ _ => [1, 0]) [alice, bob]
      [(alice, bob), (bob, alice)] rfl).1,
   (spec_c3 (fun _ _ => [1, 0]) [alice, bob]
      [(alice, bob), (bob, alice)] rfl).2 0 (by decide)⟩

/-- C5: with fewer than two participants, `random_derangement` raises the
insufficient-participants error for every random source, so no permutation
ever matters and no assignment set is returned. -/
theorem spec_c5 (shuffle : Nat → List Nat → List Nat) (ps : List Participant)
    (h : ps.length < 2) :
    random_derangement shuffle ps =
      Except.error "Need at least 2 participants for gift exchange" := by
  show (if ps.length < 2 then
      Except.error "Need at least 2 participants for gift exchange"
    else derangeAux shuffle ps ps.length 0 1000) = _
  exact if_pos h

/-- C5 witness: the empty directory under an arbitrary source. -/
theorem spec_c5_witness :
    random_derangement (fun _ l => l) [] =
      Except.error "Need at least 2 participants for gift exchange" :=
  spec_c5 (fun _ l => l) [] (by decide)

/-- C6: over a two-participant directory `[A, B]`, whenever the injected
source returns genuine permutations, the only assignment set
`random_derangement` can return is the full swap `[(A, B), (B, A)]`. -/
theorem spec_c6 (shuffle : Nat → List Nat → List Nat) (A B : Participant)
    (res : List (Participant × Participant))
    (hperm : ∀ k, (shuffle k (List.range 2)).Perm (List.range 2))
    (hok : random_derangement shuffle [A, B] = Except.ok res) :
    res = [(A, B), (B, A)] := by
  obtain ⟨h2, k, hk, hpass, hres⟩ :=
    random_derangement_ok shuffle [A, B] res hok
  have hl : ([A, B] : List Participant).length = 2 := rfl
  rw [hl] at hpass hres
  rcases perm_pair_cases (shuffle k (List.range 2))
      (by simpa using hperm k) with hσ | hσ
  · rw [hσ] at hpass
    exact absurd hpass (by decide)
  · rw [hσ] at hres
    rw [hres]
    rfl

/-- C6 witness with the swap source. -/
theorem spec_c6_witness :
    ([(alice, bob), (bob, alice)] : List (Participant × Participant)) =
      [(alice, bob), (bob, alice)] :=
  spec_c6 (fun _ _ => [1, 0]) alice bob [(alice, bob), (bob, alice)]
    (fun _ => List.Perm.swap 0 1 []) rfl

/-- C7: for the directory `[Alice, Bob, Carol]`, a source whose first draw
shuffles the indices to `[1, 2, 0]` (participants `[Bob, Carol, Alice]`)
makes `random_derangement` return exactly
`[(Alice, Bob), (Bob, Carol), (Carol, Alice)]`. -/
theorem spec_c7 (shuffle : Nat → List Nat → List Nat)
    (hfirst : shuffle 0 (List.range 3) = [1, 2, 0]) :
    random_derangement shuffle [alice, bob, carol] =
      Except.ok [(alice, bob), (bob, carol), (carol, alice)] := by
  have hl : ¬ ([alice, bob, carol] : List Participant).length < 2 := by decide
  rw [random_derangement_eq_loop shuffle [alice, bob, carol] hl]
  have hstep := derangeAux_first shuffle [alice, bob, carol] 3 1000 0 0
    (Nat.le_refl _) (by omega) (by rw [hfirst]; decide)
    (fun j hj1 hj2 => absurd hj2 (by omega))
  rw [show ([alice, bob, carol] : List Participant).length = 3 from rfl,
    hstep, hfirst]
  rfl

/-- C7 witness: the concrete constant source producing `[1, 2, 0]`. -/
theorem spec_c7_witness :
    random_derangement (fun _ _ => [1, 2, 0]) [alice, bob, carol] =
      Except.ok [(alice, bob), (bob, carol), (carol, alice)] :=
  spec_c7 (fun _ _ => [1, 2, 0]) rfl

/-- C4: over any directory with at least two participants, the engine
consumes at most the first 1000 draws (two sources agreeing on those draws
give identical results), returns the set built from the first drawn
permutation with no fixed point, and errors with the exhaustion message
when every one of the 1000 draws has a fixed point — as an always-identity
source does. -/
theorem spec_c4 (shuffle : Nat → List Nat → List Nat) (ps : List Participant)
    (h2 : 2 ≤ ps.length) :
    ((∀ k, k < 1000 →
        passesCheck ps.length (shuffle k (List.range ps.length)) = false) →
      random_derangement shuffle ps =
        Except.error "Failed to generate derangement after 1000 attempts")
    ∧ (∀ k, k < 1000 →
        passesCheck ps.length (shuffle k (List.range ps.length)) = true →
        (∀ j, j < k →
          passesCheck ps.length (shuffle j (List.range ps.length)) = false) →
        random_derangement shuffle ps =
          Except.ok (buildPairs ps ps.length (shuffle k (List.range ps.length))))
    ∧ (∀ shuffle2 : Nat → List Nat → List Nat,
        (∀ k, k < 1000 →
          shuffle2 k (List.range ps.length) = shuffle k (List.range ps.length)) →
        random_derangement shuffle2 ps = random_derangement shuffle ps) := by
  have hn : ¬ ps.length < 2 := by omega
  refine ⟨?_, ?_, ?_⟩
  · intro hall
    rw [random_derangement_eq_loop shuffle ps hn]
    exact derangeAux_error shuffle ps ps.length 1000 0
      (fun k _ hk2 => hall k (by omega))
  · intro k hk hpass hmin
    rw [random_derangement_eq_loop shuffle ps hn]
    exact derangeAux_first shuffle ps ps.length 1000 0 k (Nat.zero_le _)
      (by omega) hpass (fun j _ hj2 => hmin j hj2)
  · intro shuffle2 hag
    rw [random_derangement_eq_loop shuffle ps hn,
      random_derangement_eq_loop shuffle2 ps hn]
    exact derangeAux_congr shuffle2 shuffle ps ps.length 1000 0
      (fun k _ hk2 => hag k (by omega))

/-- C4 witness: the always-identity source on a two-participant directory
exhausts the budget and yields the exhaustion error. -/
theorem spec_c4_witness :
    random_derangement (fun _ l => l) [alice, bob] =
      Except.error "Failed to generate derangement after 1000 attempts" :=
  (spec_c4 (fun _ l => l) [alice, bob] (by decide)).1 (fun _ _ => by decide)

lemma engineStep_preserves (shuffle : Nat → List Nat → List Nat)
    (ps : List Participant) (s : EngineState)
    (h1 : s.participants = ps) (h2 : s.indices = List.range ps.length)
    (h3 : ∀ res, s.outcome = some (Except.ok res) → res.length = ps.length) :
    (engineStep shuffle s).participants = ps ∧
    (engineStep shuffle s).indices = List.range ps.length ∧
    ∀ res, (engineStep shuffle s).outcome = some (Except.ok res) →
      res.length = ps.length := by
  unfold engineStep
  cases hs : s.outcome with
  | some e =>
    exact ⟨h1, h2, fun res hres => h3 res (hs ▸ hres)⟩
  | none =>
    dsimp only
    split
    · split
      · refine ⟨h1, h2, fun res hres => ?_⟩
        simp only [Option.some.injEq, Except.ok.injEq] at hres
        rw [← hres]
        simp [buildPairs, h1]
      · exact ⟨h1, h2, fun res hres => by simp at hres⟩
    · exact ⟨h1, h2, fun res hres => by simp at hres⟩

/-- C8: the engine state machine never writes the directory or the index
list: after any number of loop iterations they are exactly as
`engineInit` set them, whatever the outcome; and when an outcome is an
assignment set it is complete (one pair per participant), never a partial
set — and the functional `random_derangement` likewise only returns
complete sets. -/
theorem spec_c8 (shuffle : Nat → List Nat → List Nat) (ps : List Participant)
    (k : Nat) :
    ((engineStep shuffle)^[k] (engineInit ps)).participants = ps ∧
    ((engineStep shuffle)^[k] (engineInit ps)).indices =
      List.range ps.length ∧
    (∀ res, ((engineStep shuffle)^[k] (engineInit ps)).outcome =
      some (Except.ok res) → res.length = ps.length) ∧
    (∀ res, random_derangement shuffle ps = Except.ok res →
      res.length = ps.length) := by
  have hmain : ((engineStep shuffle)^[k] (engineInit ps)).participants = ps ∧
      ((engineStep shuffle)^[k] (engineInit ps)).indices =
        List.range ps.length ∧
      ∀ res, ((engineStep shuffle)^[k] (engineInit ps)).outcome =
        some (Except.ok res) → res.length = ps.length := by
    induction k with
    | zero =>
      refine ⟨rfl, rfl, fun res hres => ?_⟩
      simp [engineInit] at hres
    | succ m ih =>
      rw [Function.iterate_succ_apply']
      exact engineStep_preserves shuffle ps _ ih.1 ih.2.1 ih.2.2
  refine ⟨hmain.1, hmain.2.1, hmain.2.2, fun res hres => ?_⟩
  obtain ⟨-, k2, -, -, hres2⟩ := random_derangement_ok shuffle ps res hres
  rw [hres2]
  simp [buildPairs]

/-- C8 witness: one step of the identity source over `[alice, bob]` leaves
directory and index list intact. -/
theorem spec_c8_witness :
    ((engineStep (fun _ l => l))^[1] (engineInit [alice, bob])).participants =
        [alice, bob] ∧
      ((engineStep (fun _ l => l))^[1] (engineInit [alice, bob])).indices =
        List.range ([alice, bob] : List Participant).length :=
  ⟨(spec_c8 (fun _ l => l) [alice, bob] 1).1,
   (spec_c8 (fun _ l => l) [alice, bob] 1).2.1⟩

/-- C9: `load_participants` is total — every record yields a participant —
a record with no key matching the contact column `Username` (up to
stripping) gets the empty string there, each stored field is the STRIPPED
raw cell, and lookup strips the record's key before comparing. -/
theorem spec_c9 (rows : List DictRow) (i : Nat) (hi : i < rows.length) :
    (load_participants rows).length = rows.length ∧
    ((load_participants rows).getD i emptyParticipant).email =
      rowGet (rows.getD i []) "Username" ∧
    ((∀ kv ∈ rows.getD i [], kv.1.trim ≠ "Username".trim) →
      ((load_participants rows).getD i emptyParticipant).email = "") ∧
    (∀ (key : String) (v : Option String) (rest : DictRow) (col : String),
      key.trim = col.trim →
      rowGet ((key, v) :: rest) col = (v.getD "").trim) := by
  have hlen : (load_participants rows).length = rows.length := by
    simp [load_participants]
  have hemail : ((load_participants rows).getD i emptyParticipant).email =
      rowGet (rows.getD i []) "Username" := by
    have h1 : i < (load_participants rows).length := by rw [hlen]; exact hi
    rw [List.getD_eq_getElem _ _ h1, List.getD_eq_getElem _ _ hi]
    simp [load_participants]
  refine ⟨hlen, hemail, fun hall => ?_, fun key v rest col hkey => ?_⟩
  · have hfind : (rows.getD i []).find?
        (fun kv => kv.1.trim == "Username".trim) = none := by
      rw [List.find?_eq_none]
      intro kv hkv
      simpa using hall kv hkv
    rw [hemail]
    unfold rowGet
    rw [hfind]
  · have hb : (key.trim == col.trim) = true := by simp [hkey]
    unfold rowGet
    rw [List.find?_cons_of_pos _ (by simpa using hb)]

/-- C9 witness: one record whose only key is ` Username ` with cell
` x@y.z `. -/
theorem spec_c9_witness :
    ((load_participants [[(" Username ", some " x@y.z ")]]).getD 0
        emptyParticipant).email =
      rowGet (([[(" Username ", some " x@y.z ")]] :
        List DictRow).getD 0 []) "Username" :=
  (spec_c9 [[(" Username ", some " x@y.z ")]] 0 (by decide)).2.1

/-- C10: the rows `filter_and_write` writes are exactly the input rows
whose `fw_val`-resolved (stripped) section cell is `BSCS 2-1N` and whose
stripped attendance cell is the participation answer, in input order,
each projected onto the nine selected columns, and the returned `matched`
counter equals the number of rows written. -/
theorem spec_c10 (fieldnames : List String) (rows : List DictRow) :
    (filter_and_write fieldnames rows).1 =
      (rows.filter (rowMatches fieldnames)).map
        (fun row => SELECTED_COLUMNS.map fun col =>
          (col, fw_val fieldnames row col)) ∧
    (filter_and_write fieldnames rows).2 =
      (rows.filter (rowMatches fieldnames)).length ∧
    SELECTED_COLUMNS.length = 9 := by
  induction rows with
  | nil => exact ⟨rfl, rfl, rfl⟩
  | cons row rest ih =>
    obtain ⟨ih1, ih2, -⟩ := ih
    by_cases hc : rowMatches fieldnames row = true
    · have hraw : ((fw_val fieldnames row "Enter your Section" ==
          SECTION_VALUE) &&
          (fw_val fieldnames row ATTEND_COL == ATTEND_VALUE)) = true := hc
      refine ⟨?_, ?_, rfl⟩
      · simp only [filter_and_write, hraw, if_true, List.filter_cons, hc,
          List.map_cons, ih1]
      · simp only [filter_and_write, hraw, if_true, List.filter_cons, hc,
          List.length_cons, ih2]
    · have hraw : ((fw_val fieldnames row "Enter your Section" ==
          SECTION_VALUE) &&
          (fw_val fieldnames row ATTEND_COL == ATTEND_VALUE)) = false := by
        rw [Bool.eq_false_iff]
        exact hc
      have hc2 : rowMatches fieldnames row = false := by
        rw [Bool.eq_false_iff]
        exact hc
      refine ⟨?_, ?_, rfl⟩
      · simp only [filter_and_write, hraw, if_false, List.filter_cons, hc2,
          Bool.false_eq_true, ih1]
      · simp only [filter_and_write, hraw, if_false, List.filter_cons, hc2,
          Bool.false_eq_true, ih2]

/-- C10 witness: a two-row input of which exactly the first row matches. -/
theorem spec_c10_witness :
    (filter_and_write ["Enter your Section", ATTEND_COL]
        [[("Enter your Section", some "BSCS 2-1N"),
          (ATTEND_COL, some ATTEND_VALUE)],
         [("Enter your Section", some "BSCS 2-2N"),
          (ATTEND_COL, some ATTEND_VALUE)]]).1 =
      (([[("Enter your Section", some "BSCS 2-1N"),
          (ATTEND_COL, some ATTEND_VALUE)],
         [("Enter your Section", some "BSCS 2-2N"),
          (ATTEND_COL, some ATTEND_VALUE)]] :
        List DictRow).filter
          (rowMatches ["Enter your Section", ATTEND_COL])).map
        (fun row => SELECTED_COLUMNS.map fun col =>
          (col, fw_val ["Enter your Section", ATTEND_COL] row col)) ∧
    (filter_and_write ["Enter your Section", ATTEND_COL]
        [[("Enter your Section", some "BSCS 2-1N"),
          (ATTEND_COL, some ATTEND_VALUE)],
         [("Enter your Section", some "BSCS 2-2N"),
          (ATTEND_COL, some ATTEND_VALUE)]]).2 =
      (([[("Enter your Section", some "BSCS 2-1N"),
          (ATTEND_COL, some ATTEND_VALUE)],
         [("Enter your Section", some "BSCS 2-2N"),
          (ATTEND_COL, some ATTEND_VALUE)]] :
        List DictRow).filter
          (rowMatches ["Enter your Section", ATTEND_COL])).length ∧
    SELECTED_COLUMNS.length = 9 :=
  spec_c10 ["Enter your Section", ATTEND_COL]
    [[("Enter your Section", some "BSCS 2-1N"),
      (ATTEND_COL, some ATTEND_VALUE)],
     [("Enter your Section", some "BSCS 2-2N"),
      (ATTEND_COL, some ATTEND_VALUE)]]
